import Mathlib

/-!
Verification of the task persistence and mutation layer of the `ai-ctx`
repository: the `taskService` module (source: `src/prompt.md`, the inlined
`taskService.ts`) together with the data model of `src/src/types/task.ts`.

The browser's localStorage slot under the key `'tasks'` is modelled by
`Slot`: the slot is either absent (`getItem` returns `null`, or the stored
string is empty/falsy), holds a blob that `JSON.parse` rejects, or holds a
blob that parses to a JSON value (`JVal`).  `JSON.stringify` of a task
array always produces a blob parsing back to that array, which is how the
platform's JSON codec behaves on arrays of records with string/enum fields.

JavaScript runtime effects that the TypeScript types erase are kept:
an update payload is modelled as a record with *every* task field optional
(`Patch`), because object spread `{...task, ...data}` copies whatever own
properties `data` really has at runtime; the declared `UpdateTaskRequest`
interface corresponds to the patches satisfying `Patch.isUpdateTaskRequest`.
Array operations applied to a parsed non-array value raise `TypeError` in
JavaScript; the model returns `Err.typeError` there.  Nondeterministic
inputs (clock readings, `Math.random`) are explicit parameters, and the
possible failure of `localStorage.setItem` is the `wok` flag on writes.
-/

namespace AiCtx

/-- Source: `export type TaskStatus = 'pending' | 'completed'`. -/
inductive TaskStatus where
  | pending
  | completed
deriving DecidableEq

/-- Source: `export type TaskPriority = 'low' | 'medium' | 'high'`. -/
inductive TaskPriority where
  | low
  | medium
  | high
deriving DecidableEq

/-- Source: `interface Task` from `src/src/types/task.ts`. -/
structure Task where
  id : String
  title : String
  description : String
  dueDate : String
  status : TaskStatus
  priority : TaskPriority
  createdAt : String
  updatedAt : String
deriving DecidableEq

/-- Source: `interface CreateTaskRequest` from `src/src/types/task.ts`. -/
structure CreateTaskRequest where
  title : String
  description : String
  dueDate : String
  priority : TaskPriority
deriving DecidableEq

/-- The runtime shape of an update payload: a JavaScript object whose own
properties are spread over the existing record.  Any `Task` field may be
present.  The TypeScript interface `UpdateTaskRequest` only declares
`title?/description?/dueDate?/status?/priority?`; see
`Patch.isUpdateTaskRequest`. -/
structure Patch where
  id : Option String := none
  title : Option String := none
  description : Option String := none
  dueDate : Option String := none
  status : Option TaskStatus := none
  priority : Option TaskPriority := none
  createdAt : Option String := none
  updatedAt : Option String := none
deriving DecidableEq

/-- A patch expressible in the declared `UpdateTaskRequest` interface:
it carries none of the store-internal fields `id`, `createdAt`,
`updatedAt`. -/
def Patch.isUpdateTaskRequest (p : Patch) : Prop :=
  p.id = none ∧ p.createdAt = none ∧ p.updatedAt = none

instance (p : Patch) : Decidable p.isUpdateTaskRequest := by
  unfold Patch.isUpdateTaskRequest
  infer_instance

/-- JSON values a stored blob can parse to, as far as this layer
distinguishes them: an array of task-shaped records, or some other JSON
value (number, string, or anything else — object, boolean, null,
non-task array). -/
inductive JVal where
  | arr (ts : List Task)
  | num (n : Int)
  | str (s : String)
  | other
deriving DecidableEq

/-- State of the localStorage slot under the key `'tasks'`. -/
inductive Slot where
  | absent
  | unparsable (raw : String)
  | parsed (v : JVal)
deriving DecidableEq

/-- Base-36 digit, as produced by JavaScript `Number.prototype.toString(36)`:
`0`–`9` then `a`–`z`. -/
def base36Digit (n : Nat) : Char :=
  if n < 10 then Char.ofNat (48 + n) else Char.ofNat (87 + n)

/-- Base-36 digit list of `n`, most significant first; `fuel` bounds the
recursion (any `fuel > 0` with `36 ^ fuel > n` gives all digits). -/
def base36Aux : Nat → Nat → List Char
  | 0, _ => []
  | fuel + 1, n =>
      if n < 36 then [base36Digit n]
      else base36Aux fuel (n / 36) ++ [base36Digit (n % 36)]

/-- Rendering `n.toString(36)` for a natural number `n`. -/
def natToBase36 (n : Nat) : String :=
  String.mk (base36Aux (n + 1) n)

/-- Source `generateId`:
`Date.now().toString(36) + Math.random().toString(36).substring(2)`.
The clock reading (milliseconds) and the digit string of the random draw
(what follows `0.` in its base-36 rendering) are explicit inputs. -/
def generateId (timeMs : Nat) (rand : String) : String :=
  natToBase36 timeMs ++ rand

/-- Source `getAllTasks`: reads the slot; a falsy/absent value yields `[]`, a
parse failure is caught (warning logged) and yields `[]`, and a parse
success yields the parsed value as-is — no shape validation. -/
def getAllTasks : Slot → JVal
  | .absent => .arr []
  | .unparsable _ => .arr []
  | .parsed v => v

/-- Source `saveTasks`: `localStorage.setItem(STORAGE_KEY, JSON.stringify(tasks))`
inside try/catch.  `wok` tells whether the write succeeds; a failure is
caught (warning logged) and leaves the slot untouched. -/
def saveTasks (tasks : List Task) (wok : Bool) (s : Slot) : Slot :=
  if wok then .parsed (.arr tasks) else s

/-- The task list the service operates on, when `getAllTasks` produced an
array; `none` when it produced a non-array value (on which the service's
array methods would raise `TypeError`). -/
def readTasks (s : Slot) : Option (List Task) :=
  match getAllTasks s with
  | .arr ts => some ts
  | _ => none

/-- Failures an operation can surface: `throw new Error('Task not found')`,
or a JavaScript `TypeError` from applying an array method to a parsed
non-array value. -/
inductive Err where
  | notFound
  | typeError
deriving DecidableEq

/-- The spread `{ ...task, ...data }`: every own property of the payload overrides the
corresponding field of the existing record; absent properties leave the
field unchanged. -/
def mergePatch (t : Task) (p : Patch) : Task :=
  { id := p.id.getD t.id
    title := p.title.getD t.title
    description := p.description.getD t.description
    dueDate := p.dueDate.getD t.dueDate
    status := p.status.getD t.status
    priority := p.priority.getD t.priority
    createdAt := p.createdAt.getD t.createdAt
    updatedAt := p.updatedAt.getD t.updatedAt }

namespace taskService

/-- Source `taskService.getAll`: returns `{ data: getAllTasks() }`; cannot throw
and does not write. -/
def getAll (s : Slot) : Except Err JVal × Slot :=
  (.ok (getAllTasks s), s)

/-- Source `taskService.getById`: `tasks.find((t) => t.id === id)`, throwing
`'Task not found'` when absent; does not write. -/
def getById (id : String) (s : Slot) : Except Err Task × Slot :=
  match readTasks s with
  | none => (.error .typeError, s)
  | some ts =>
      match ts.find? (fun t => t.id == id) with
      | some t => (.ok t, s)
      | none => (.error .notFound, s)

/-- Source `taskService.create`: builds `newTask` with a generated id, the four
request fields, `status: 'pending'`, `createdAt = updatedAt = now`, appends
(`[...tasks, newTask]`) and saves.  `now` is the `dayjs().toISOString()`
reading, `timeMs`/`rand` feed `generateId`, `wok` is the write outcome. -/
def create (req : CreateTaskRequest) (now : String) (timeMs : Nat)
    (rand : String) (wok : Bool) (s : Slot) : Except Err Task × Slot :=
  match readTasks s with
  | none => (.error .typeError, s)
  | some ts =>
      let newTask : Task :=
        { id := generateId timeMs rand
          title := req.title
          description := req.description
          dueDate := req.dueDate
          status := .pending
          priority := req.priority
          createdAt := now
          updatedAt := now }
      (.ok newTask, saveTasks (ts ++ [newTask]) wok s)

/-- Source `taskService.update`: `tasks.findIndex((t) => t.id === id)`, throwing
`'Task not found'` on `-1`; otherwise
`{ ...tasks[taskIndex], ...data, updatedAt: dayjs().toISOString() }` is
written back at the found index and the whole array saved.  The literal
`updatedAt: now` comes after the payload spread, so it wins over any
`updatedAt` the payload carries; nothing re-asserts `id` or `createdAt`
after the spread. -/
def update (id : String) (data : Patch) (now : String) (wok : Bool)
    (s : Slot) : Except Err Task × Slot :=
  match readTasks s with
  | none => (.error .typeError, s)
  | some ts =>
      let i := ts.findIdx (fun t => t.id == id)
      match ts.get? i with
      | none => (.error .notFound, s)
      | some t =>
          let updatedTask : Task := { mergePatch t data with updatedAt := now }
          (.ok updatedTask, saveTasks (ts.set i updatedTask) wok s)

/-- Source `taskService.delete`: `tasks.filter((t) => t.id !== id)` then save;
never throws (on an array state) and never inspects whether anything was
removed. -/
def delete (id : String) (wok : Bool) (s : Slot) : Except Err Unit × Slot :=
  match readTasks s with
  | none => (.error .typeError, s)
  | some ts => (.ok (), saveTasks (ts.filter (fun t => t.id != id)) wok s)

end taskService

/-- A sequence of `create` calls (request, clock reading, `generateId`
inputs), each with a successful write, threaded through the slot. -/
def createMany (calls : List (CreateTaskRequest × String × Nat × String))
    (s : Slot) : Slot :=
  calls.foldl
    (fun st c => (taskService.create c.1 c.2.1 c.2.2.1 c.2.2.2 true st).2) s

/-- The task a single entry of `createMany` appends (its generated id, its
request fields, `pending`, both timestamps at its clock reading). -/
def newTaskOf (c : CreateTaskRequest × String × Nat × String) : Task :=
  { id := generateId c.2.2.1 c.2.2.2
    title := c.1.title
    description := c.1.description
    dueDate := c.1.dueDate
    status := .pending
    priority := c.1.priority
    createdAt := c.2.1
    updatedAt := c.2.1 }

/-! ### Concrete fixtures used by witnesses and counterexamples -/

def sampleTask : Task :=
  { id := "abc"
    title := "Buy milk"
    description := "2%, one gallon"
    dueDate := "2024-06-01T00:00:00.000Z"
    status := .pending
    priority := .medium
    createdAt := "2024-01-01T00:00:00.000Z"
    updatedAt := "2024-01-01T00:00:00.000Z" }

def sampleSlot : Slot := .parsed (.arr [sampleTask])

def sampleReq : CreateTaskRequest :=
  { title := "Buy milk"
    description := "2%, one gallon"
    dueDate := "2024-06-01T00:00:00.000Z"
    priority := .medium }

/-! ### Helper lemmas -/

/-- Indexing a list at `findIdx p` yields exactly `find? p`: the element the
source's `tasks[tasks.findIndex(pred)]` denotes is the first match, and is
absent exactly when `findIndex` returns `-1`. -/
theorem get?_findIdx_eq_find? {α : Type} (p : α → Bool) :
    ∀ l : List α, l.get? (l.findIdx p) = l.find? p
  | [] => rfl
  | a :: l => by
      cases h : p a with
      | true =>
          rw [List.findIdx_cons, h, cond_true, List.find?_cons_of_pos _ h]
          rfl
      | false =>
          rw [List.findIdx_cons, h, cond_false,
            List.find?_cons_of_neg _ (by simp [h])]
          exact get?_findIdx_eq_find? p l

/-- On a state holding tasks none of which carries the requested id, both
`update` and `getById` fail with NotFound and leave the slot untouched. -/
theorem update_getById_missing {id : String} {p : Patch} {now : String}
    {wok : Bool} {s : Slot} {ts : List Task}
    (hread : readTasks s = some ts) (habs : ∀ t ∈ ts, t.id ≠ id) :
    taskService.update id p now wok s = (Except.error Err.notFound, s)
    ∧ taskService.getById id s = (Except.error Err.notFound, s) := by
  have hfind : ts.find? (fun t => t.id == id) = none :=
    List.find?_eq_none.mpr (fun t ht => by simpa using habs t ht)
  have hget : ts[ts.findIdx (fun t => t.id == id)]? = none := by
    rw [← List.get?_eq_getElem?, get?_findIdx_eq_find?, hfind]
  constructor
  · simp [taskService.update, hread, hget]
  · simp [taskService.getById, hread, hfind]

/-- Indexing at `findIdx` in `getElem?` form, given a `find?` result. -/
theorem getElem?_findIdx_of_find? {α : Type} {l : List α} {p : α → Bool}
    {a : α} (hfound : l.find? p = some a) : l[l.findIdx p]? = some a := by
  rw [← List.get?_eq_getElem?, get?_findIdx_eq_find?, hfound]

/-- Shape of a successful `update` with a successful write: the first task
matching the id, overlaid with the payload, with `updatedAt` then forced to
`now`, is returned and written back in place. -/
theorem update_found_eq {id : String} {p : Patch} {now : String} {s : Slot}
    {ts : List Task} {t : Task}
    (hread : readTasks s = some ts)
    (hfound : ts.find? (fun x => x.id == id) = some t) :
    taskService.update id p now true s
      = (Except.ok { mergePatch t p with updatedAt := now },
         Slot.parsed (JVal.arr (ts.set (ts.findIdx (fun x => x.id == id))
           { mergePatch t p with updatedAt := now }))) := by
  have hget := getElem?_findIdx_of_find? hfound
  simp [taskService.update, hread, hget, saveTasks]

/-! ### Claims -/

/-- C6: if the stored blob fails to parse, the store reads the empty task
list (`getAllTasks` returns `[]`), `list()` returns the empty sequence with
the slot untouched, and `getAll` returns a success on every possible slot
state — the read path never raises a hard error. -/
theorem corrupt_storage_reads_empty :
    (∀ raw, getAllTasks (Slot.unparsable raw) = JVal.arr [])
    ∧ (∀ raw, taskService.getAll (Slot.unparsable raw)
        = (Except.ok (JVal.arr []), Slot.unparsable raw))
    ∧ (∀ s, (taskService.getAll s).1 = Except.ok (getAllTasks s)) :=
  ⟨fun _ => rfl, fun _ => rfl, fun _ => rfl⟩

/-- C7: `saveAll` (with a successful storage write) followed by `loadAll`
returns exactly the saved sequence of tasks, field-for-field — in fact in
the same order, which implies the order-insensitive reading. -/
theorem saveAll_then_loadAll_roundtrip :
    ∀ (ts : List Task) (s : Slot), getAllTasks (saveTasks ts true s) = JVal.arr ts :=
  fun _ _ => rfl

/-- C9: the read operations `getAll` (`list()`) and `getById` leave the
storage slot exactly as it was, on every starting content and whether they
succeed or fail. -/
theorem reads_never_write :
    ∀ (s : Slot) (id : String),
      (taskService.getAll s).2 = s ∧ (taskService.getById id s).2 = s := by
  intro s id
  refine ⟨rfl, ?_⟩
  unfold taskService.getById
  cases hr : readTasks s with
  | none => rfl
  | some ts =>
      cases hf : List.find? (fun t => t.id == id) ts with
      | none => simp [hf]
      | some t => simp [hf]

/-- C10: a blob that parses successfully is returned as-is by `loadAll`,
with no shape validation: a parsed JSON number or string is handed to the
caller unchanged, not degraded to the empty sequence. -/
theorem parsed_value_returned_as_is :
    (∀ v, getAllTasks (Slot.parsed v) = v)
    ∧ (∀ v, (taskService.getAll (Slot.parsed v)).1 = Except.ok v)
    ∧ (∀ n : Int, getAllTasks (Slot.parsed (JVal.num n)) ≠ JVal.arr [])
    ∧ (∀ w : String, getAllTasks (Slot.parsed (JVal.str w)) ≠ JVal.arr []) :=
  ⟨fun _ => rfl, fun _ => rfl, fun _ h => JVal.noConfusion h,
    fun _ h => JVal.noConfusion h⟩

/-- C2: on a state whose tasks all have a different id than the requested
one, `update` fails with NotFound leaving the slot unchanged (whatever the
patch and whether the write would have succeeded), and `getById` fails with
NotFound leaving the slot unchanged. -/
theorem update_and_getById_notFound_on_missing_id (id : String) (p : Patch)
    (now : String) (wok : Bool) (s : Slot) (ts : List Task)
    (hread : readTasks s = some ts) (habs : ∀ t ∈ ts, t.id ≠ id) :
    taskService.update id p now wok s = (Except.error Err.notFound, s)
    ∧ taskService.getById id s = (Except.error Err.notFound, s) :=
  update_getById_missing hread habs

/-- C2 witness: concretely, updating or fetching `"does-not-exist"` on a
one-task store fails with NotFound and leaves the slot as it was. -/
theorem update_and_getById_notFound_on_missing_id_witness :
    taskService.update "does-not-exist" {} "T" true sampleSlot
      = (Except.error Err.notFound, sampleSlot)
    ∧ taskService.getById "does-not-exist" sampleSlot
      = (Except.error Err.notFound, sampleSlot) :=
  update_and_getById_notFound_on_missing_id "does-not-exist" {} "T" true
    sampleSlot [sampleTask] rfl (by decide)

/-- C3: on any state reading as a task list, `create` succeeds for every
request (no validation of the fields), returning a task with
`status = pending`, `createdAt = updatedAt = now`, the four request fields
verbatim and the freshly generated id; the new task is appended to the
collection and the full collection is persisted. -/
theorem create_succeeds_with_defaults (req : CreateTaskRequest) (now : String)
    (timeMs : Nat) (rand : String) (s : Slot) (ts : List Task)
    (hread : readTasks s = some ts) :
    ∃ u : Task,
      taskService.create req now timeMs rand true s
        = (Except.ok u, Slot.parsed (JVal.arr (ts ++ [u])))
      ∧ u.status = TaskStatus.pending
      ∧ u.createdAt = now ∧ u.updatedAt = now
      ∧ u.title = req.title ∧ u.description = req.description
      ∧ u.dueDate = req.dueDate ∧ u.priority = req.priority
      ∧ u.id = generateId timeMs rand := by
  refine ⟨newTaskOf (req, now, timeMs, rand), ?_, rfl, rfl, rfl, rfl, rfl,
    rfl, rfl, rfl⟩
  simp [taskService.create, hread, saveTasks, newTaskOf]

/-- C3 witness: a concrete `create` on the empty (absent) store. -/
theorem create_succeeds_with_defaults_witness :
    ∃ u : Task,
      taskService.create sampleReq "2024-05-01T00:00:00.000Z" 99 "k7q" true
          Slot.absent
        = (Except.ok u, Slot.parsed (JVal.arr (([] : List Task) ++ [u])))
      ∧ u.status = TaskStatus.pending
      ∧ u.createdAt = "2024-05-01T00:00:00.000Z"
      ∧ u.updatedAt = "2024-05-01T00:00:00.000Z"
      ∧ u.title = sampleReq.title ∧ u.description = sampleReq.description
      ∧ u.dueDate = sampleReq.dueDate ∧ u.priority = sampleReq.priority
      ∧ u.id = generateId 99 "k7q" :=
  create_succeeds_with_defaults sampleReq "2024-05-01T00:00:00.000Z" 99 "k7q"
    Slot.absent [] rfl

/-- C5: `delete` never fails on a state reading as a task list; deleting an
id no task carries is a silent no-op on the collection, while `update` and
`getById` on that same missing id do fail with NotFound (the asymmetry);
and for any id whatsoever — present or not — deleting it twice in a row
ends in the same slot state as deleting it once. -/
theorem delete_never_fails_noop_idempotent (id : String) (p : Patch)
    (now : String) (wok : Bool) (s : Slot) (ts : List Task)
    (hread : readTasks s = some ts) (habs : ∀ t ∈ ts, t.id ≠ id)
    (id2 : String) :
    (taskService.delete id true s).1 = Except.ok ()
    ∧ readTasks (taskService.delete id true s).2 = some ts
    ∧ taskService.update id p now wok s = (Except.error Err.notFound, s)
    ∧ taskService.getById id s = (Except.error Err.notFound, s)
    ∧ (taskService.delete id2 true (taskService.delete id2 true s).2).2
        = (taskService.delete id2 true s).2 := by
  have h1 : taskService.delete id true s
      = (Except.ok (), Slot.parsed (JVal.arr (ts.filter (fun t => t.id != id)))) := by
    simp [taskService.delete, hread, saveTasks]
  have hkeep : ts.filter (fun t => t.id != id) = ts :=
    List.filter_eq_self.mpr (fun t ht => by simpa using habs t ht)
  obtain ⟨hu, hg⟩ := update_getById_missing hread habs
  refine ⟨by rw [h1], ?_, hu, hg, ?_⟩
  · rw [h1, hkeep]
    rfl
  · have h2 : taskService.delete id2 true s
        = (Except.ok (), Slot.parsed (JVal.arr (ts.filter (fun t => t.id != id2)))) := by
      simp [taskService.delete, hread, saveTasks]
    rw [h2]
    simp only [taskService.delete, readTasks, getAllTasks, saveTasks, if_pos]
    have : (ts.filter (fun t => t.id != id2)).filter (fun t => t.id != id2)
        = ts.filter (fun t => t.id != id2) :=
      List.filter_eq_self.mpr (fun t ht => (List.mem_filter.mp ht).2)
    rw [this]

/-- C5 witness: on the one-task store, deleting the missing id `"zzz"` is a
silent no-op while `update`/`getById` on `"zzz"` fail with NotFound, and
deleting the present id `"abc"` twice ends as deleting it once. -/
theorem delete_never_fails_noop_idempotent_witness :
    (taskService.delete "zzz" true sampleSlot).1 = Except.ok ()
    ∧ readTasks (taskService.delete "zzz" true sampleSlot).2 = some [sampleTask]
    ∧ taskService.update "zzz" {} "T" true sampleSlot
        = (Except.error Err.notFound, sampleSlot)
    ∧ taskService.getById "zzz" sampleSlot
        = (Except.error Err.notFound, sampleSlot)
    ∧ (taskService.delete "abc" true (taskService.delete "abc" true sampleSlot).2).2
        = (taskService.delete "abc" true sampleSlot).2 :=
  delete_never_fails_noop_idempotent "zzz" {} "T" true sampleSlot [sampleTask]
    rfl (by decide) "abc"

/-- A runtime payload that carries the store-internal fields `id` and
`createdAt` (inexpressible in the `UpdateTaskRequest` interface, but a
plain JavaScript object at runtime). -/
def evilPatch : Patch :=
  { id := some "evil", createdAt := some "1999-01-01T00:00:00.000Z" }

/-- A payload expressible in the `UpdateTaskRequest` interface. -/
def goodPatch : Patch := { priority := some .high }

/-- What the source's merge produces for `sampleTask` under `evilPatch`
with clock reading `2024-02-02T00:00:00.000Z`. -/
def evilResult : Task :=
  { sampleTask with
    id := "evil"
    createdAt := "1999-01-01T00:00:00.000Z"
    updatedAt := "2024-02-02T00:00:00.000Z" }

/-- C1 counterexample: the merge `{...existing, ...data, updatedAt: now}`
re-asserts nothing after the payload spread, so a payload carrying `id` and
`createdAt` overrides both: updating `"abc"` with such a payload returns
and persists a task whose id is `"evil"` and whose `createdAt` changed —
the protected fields do NOT take precedence over patch fields. -/
theorem update_protected_fields_counterexample :
    (taskService.update "abc" evilPatch "2024-02-02T00:00:00.000Z" true
        sampleSlot).1
      = Except.ok evilResult
    ∧ readTasks (taskService.update "abc" evilPatch "2024-02-02T00:00:00.000Z"
        true sampleSlot).2
      = some [evilResult]
    ∧ evilResult.id ≠ sampleTask.id
    ∧ evilResult.createdAt ≠ sampleTask.createdAt := by
  refine ⟨rfl, rfl, by decide, by decide⟩

/-- C1 (amended): for every patch that does not itself carry `id` or
`createdAt` — which includes every patch expressible in the declared
`UpdateTaskRequest` interface — a successful `update` returns and persists
a task with the same `id` and the same `createdAt` as the stored task it
replaces (the first task whose id matches the requested one). -/
theorem update_preserves_protected_fields (id : String) (p : Patch)
    (now : String) (s : Slot) (ts : List Task) (t : Task)
    (hp_id : p.id = none) (hp_created : p.createdAt = none)
    (hread : readTasks s = some ts)
    (hfound : ts.find? (fun x => x.id == id) = some t) :
    ∃ u : Task,
      taskService.update id p now true s
        = (Except.ok u,
           Slot.parsed (JVal.arr (ts.set (ts.findIdx (fun x => x.id == id)) u)))
      ∧ u.id = t.id ∧ u.createdAt = t.createdAt ∧ u.id = id := by
  have htid : t.id = id := by
    have := List.find?_some hfound
    simpa using this
  refine ⟨{ mergePatch t p with updatedAt := now },
    update_found_eq hread hfound, ?_, ?_, ?_⟩
  · simp [mergePatch, hp_id]
  · simp [mergePatch, hp_created]
  · simp [mergePatch, hp_id, htid]

/-- C1 witness: updating `"abc"` with a priority-only patch keeps
`id = "abc"` and the original `createdAt`. -/
theorem update_preserves_protected_fields_witness :
    ∃ u : Task,
      taskService.update "abc" goodPatch "2024-02-02T00:00:00.000Z" true
          sampleSlot
        = (Except.ok u,
           Slot.parsed (JVal.arr ([sampleTask].set
             ([sampleTask].findIdx (fun x => x.id == "abc")) u)))
      ∧ u.id = sampleTask.id ∧ u.createdAt = sampleTask.createdAt
      ∧ u.id = "abc" :=
  update_preserves_protected_fields "abc" goodPatch "2024-02-02T00:00:00.000Z"
    sampleSlot [sampleTask] sampleTask rfl rfl rfl (by decide)

/-- C4 counterexample: `update` stamps `updatedAt` with the clock reading
`now`; when the clock has not advanced past the stored `updatedAt` (here:
`now` equal to it, as happens for two mutations within one millisecond),
the post-update `updatedAt` is NOT strictly greater than the pre-update
one — the claim's strict inequality fails at this input. -/
theorem update_updatedAt_counterexample :
    (taskService.update "abc" goodPatch sampleTask.updatedAt true
        sampleSlot).1
      = Except.ok { sampleTask with priority := TaskPriority.high }
    ∧ ¬ sampleTask.updatedAt
        < ({ sampleTask with priority := TaskPriority.high } : Task).updatedAt := by
  refine ⟨rfl, fun h => absurd (String.lt_iff_toList_lt.mp h) (by decide)⟩

/-- C4 (amended): for every patch expressible in `UpdateTaskRequest`, a
successful `update` returns and persists the stored task with every field
named in the patch set to the patch value, every unnamed field retained,
`id` and `createdAt` untouched, and `updatedAt` set to `now` — strictly
greater than the pre-update `updatedAt` whenever the clock reading `now`
is strictly greater than it. -/
theorem update_merges_patch_and_stamps (id : String) (p : Patch)
    (now : String) (s : Slot) (ts : List Task) (t : Task)
    (hp : p.isUpdateTaskRequest)
    (hread : readTasks s = some ts)
    (hfound : ts.find? (fun x => x.id == id) = some t)
    (hlt : t.updatedAt < now) :
    ∃ u : Task,
      taskService.update id p now true s
        = (Except.ok u,
           Slot.parsed (JVal.arr (ts.set (ts.findIdx (fun x => x.id == id)) u)))
      ∧ u.title = p.title.getD t.title
      ∧ u.description = p.description.getD t.description
      ∧ u.dueDate = p.dueDate.getD t.dueDate
      ∧ u.status = p.status.getD t.status
      ∧ u.priority = p.priority.getD t.priority
      ∧ u.id = t.id ∧ u.createdAt = t.createdAt
      ∧ u.updatedAt = now ∧ t.updatedAt < u.updatedAt := by
  obtain ⟨hp1, hp2, hp3⟩ := hp
  refine ⟨{ mergePatch t p with updatedAt := now },
    update_found_eq hread hfound, rfl, rfl, rfl, rfl, rfl, ?_, ?_, rfl, hlt⟩
  · simp [mergePatch, hp1]
  · simp [mergePatch, hp2]

/-- C4 witness: a priority-only patch applied with an advanced clock takes
effect field-wise and strictly advances `updatedAt`. -/
theorem update_merges_patch_and_stamps_witness :
    ∃ u : Task,
      taskService.update "abc" goodPatch "2024-02-02T00:00:00.000Z" true
          sampleSlot
        = (Except.ok u,
           Slot.parsed (JVal.arr ([sampleTask].set
             ([sampleTask].findIdx (fun x => x.id == "abc")) u)))
      ∧ u.title = goodPatch.title.getD sampleTask.title
      ∧ u.description = goodPatch.description.getD sampleTask.description
      ∧ u.dueDate = goodPatch.dueDate.getD sampleTask.dueDate
      ∧ u.status = goodPatch.status.getD sampleTask.status
      ∧ u.priority = goodPatch.priority.getD sampleTask.priority
      ∧ u.id = sampleTask.id ∧ u.createdAt = sampleTask.createdAt
      ∧ u.updatedAt = "2024-02-02T00:00:00.000Z"
      ∧ sampleTask.updatedAt < u.updatedAt :=
  update_merges_patch_and_stamps "abc" goodPatch "2024-02-02T00:00:00.000Z"
    sampleSlot [sampleTask] sampleTask (by decide) rfl (by decide)
    (String.lt_iff_toList_lt.mpr (by decide))

/-- One step of `createMany` appends the call's new task and persists. -/
theorem createMany_cons (c : CreateTaskRequest × String × Nat × String)
    (rest : List (CreateTaskRequest × String × Nat × String)) (s : Slot)
    (ts : List Task) (hread : readTasks s = some ts) :
    createMany (c :: rest) s
      = createMany rest (Slot.parsed (JVal.arr (ts ++ [newTaskOf c]))) := by
  simp [createMany, taskService.create, hread, saveTasks, newTaskOf]

/-- `createMany` appends one task per call, in order. -/
theorem readTasks_createMany
    (calls : List (CreateTaskRequest × String × Nat × String)) :
    ∀ (s : Slot) (ts : List Task), readTasks s = some ts →
      readTasks (createMany calls s) = some (ts ++ calls.map newTaskOf) := by
  induction calls with
  | nil => intro s ts hread; simpa [createMany] using hread
  | cons c rest ih =>
      intro s ts hread
      rw [createMany_cons c rest s ts hread]
      have := ih (Slot.parsed (JVal.arr (ts ++ [newTaskOf c])))
        (ts ++ [newTaskOf c]) rfl
      simpa [List.append_assoc] using this

/-- A call of `create` with clock `2024-05-01T00:00:00.000Z`, `Date.now()`
reading 7 ms and random digits `"r"`. -/
def dupCall : CreateTaskRequest × String × Nat × String :=
  (sampleReq, "2024-05-01T00:00:00.000Z", 7, "r")

/-- C8 counterexample: `create` never consults the existing collection
when generating an id, so two `create` calls whose `Date.now()` reading
and `Math.random()` draw coincide (same millisecond, same random value)
persist two tasks with the *same* id — the collection's ids are no longer
pairwise distinct. -/
theorem create_duplicate_id_counterexample :
    readTasks (createMany [dupCall, dupCall] (Slot.parsed (JVal.arr [])))
      = some [newTaskOf dupCall, newTaskOf dupCall]
    ∧ ¬ (([newTaskOf dupCall, newTaskOf dupCall].map Task.id)).Nodup := by
  refine ⟨rfl, fun h => ?_⟩
  exact (List.nodup_cons.mp h).1 (List.mem_singleton_self _)

/-- C8 (amended): creating N tasks in sequence yields N pairwise-distinct
ids *provided* the N `generateId` outputs (from the calls' time and random
inputs) are pairwise distinct and avoid the ids already stored — the code
does not check for collisions, it merely makes them improbable; under that
proviso the whole persisted collection keeps pairwise-distinct ids. -/
theorem create_ids_distinct
    (calls : List (CreateTaskRequest × String × Nat × String)) (s : Slot)
    (ts : List Task) (hread : readTasks s = some ts)
    (hts : (ts.map Task.id).Nodup)
    (hcalls : (calls.map (fun c => generateId c.2.2.1 c.2.2.2)).Nodup)
    (hfresh : ∀ c ∈ calls, ∀ t ∈ ts, generateId c.2.2.1 c.2.2.2 ≠ t.id) :
    readTasks (createMany calls s) = some (ts ++ calls.map newTaskOf)
    ∧ ((ts ++ calls.map newTaskOf).map Task.id).Nodup
    ∧ (calls.map newTaskOf).length = calls.length := by
  refine ⟨readTasks_createMany calls s ts hread, ?_, List.length_map _ _⟩
  rw [List.map_append, List.nodup_append]
  refine ⟨hts, ?_, ?_⟩
  · rw [List.map_map]
    exact hcalls
  · intro a ha hb
    rw [List.map_map] at hb
    obtain ⟨t, ht, rfl⟩ := List.mem_map.mp ha
    obtain ⟨c, hc, he⟩ := List.mem_map.mp hb
    exact hfresh c hc t ht he

/-- Two create calls in the same millisecond with different random draws. -/
def callA : CreateTaskRequest × String × Nat × String :=
  (sampleReq, "2024-05-01T00:00:00.000Z", 0, "x")

def callB : CreateTaskRequest × String × Nat × String :=
  (sampleReq, "2024-05-01T00:00:00.000Z", 0, "y")

/-- C8 witness: two creates on the empty store whose random components
differ produce two tasks with pairwise-distinct ids. -/
theorem create_ids_distinct_witness :
    readTasks (createMany [callA, callB] Slot.absent)
      = some (([] : List Task) ++ [callA, callB].map newTaskOf)
    ∧ (((([] : List Task) ++ [callA, callB].map newTaskOf)).map Task.id).Nodup
    ∧ ([callA, callB].map newTaskOf).length = [callA, callB].length :=
  create_ids_distinct [callA, callB] Slot.absent [] rfl (by decide)
    (by decide) (by decide)

end AiCtx
